import Mathlib

/-!
Verification of the node-local request-batching proxy (serverless-benchmarks).

The development shallowly embeds the two batcher families of the repository:

* the key-value (Redis) batcher `RedisBatcher` found in
  `openwhisk/s3/batching-agent/Dockerfile` (embedded Go source, lines 154-537),
  together with the gorilla/mux HTTP front of `unnamed/part_003`;
* the object-store (S3) batcher of `unnamed/part_010` (the earlier
  read-forward revision) and `unnamed/part_011` (the grouped-execution
  revision), together with the HTTP front of `unnamed/part_009`.

Machine integers of the source (int64 counts) are modelled as `Int`/`Nat`;
the values at stake are tiny counts, no overflow is reachable.  Go channels of
capacity one are modelled as `Option` slots; the Go runtime's panic on sending
to a closed channel is modelled as an explicit `panicked` outcome.
-/

namespace Redis

/-- Operation type constants of the Redis batcher (Dockerfile lines 167-172). -/
def TypeGet : String := "Get"

/-- Operation type constant for Set. -/
def TypeSet : String := "Set"

/-- Operation type constant for Del. -/
def TypeDel : String := "Del"

/-- Operation type constant for Exists. -/
def TypeExists : String := "Exists"

/-- A batchable Redis request (Dockerfile lines 175-181).  The two delivery
channels of the source are not stored in the request; deliveries are tracked
as explicit `(requestId, Delivery)` events produced by the batcher functions,
and requests are identified by the `Nat` id they are paired with. -/
structure BatchRequest where
  type : String
  key : String
  value : String := ""
deriving DecidableEq, Repr

/-- A value a Redis command can return: Get/Set return strings, Del/Exists
return int64 counts. -/
inductive RValue where
  | str (s : String)
  | int (n : Int)
deriving DecidableEq, Repr

/-- Errors the batcher can deliver: the go-redis `redis.Nil` error for a
missing Get key, a transport error from a failed pipeline `Exec`, and the
batcher's own `unsupported request type` error. -/
inductive RErr where
  | nilErr
  | transport (msg : String)
  | unsupported (ty : String)
deriving DecidableEq, Repr

/-- A delivery on one of a request's two channels: `result` models a send on
`ResultChan`, `error` a send on `ErrorChan`. -/
inductive Delivery where
  | result (v : RValue)
  | error (e : RErr)
deriving DecidableEq, Repr

/-- The Redis store backing the agent, modelled as an association list of
key/value pairs. -/
def Store := List (String × String)
deriving DecidableEq, Repr

/-- Redis GET: the stored value, if any. -/
def storeGet (s : Store) (k : String) : Option String :=
  (List.find? (fun p => p.1 = k) s).map Prod.snd

/-- Redis SET with unbounded TTL: replaces any binding of `k`. -/
def storeSet (s : Store) (k v : String) : Store :=
  List.filter (fun p => p.1 ≠ k) s ++ [(k, v)]

/-- Redis DEL: the store without `k`, and the number of keys deleted. -/
def storeDel (s : Store) (k : String) : Store × Int :=
  (List.filter (fun p => p.1 ≠ k) s,
   if (storeGet s k).isSome then 1 else 0)

/-- Redis EXISTS: the number of the given keys that exist (here one key). -/
def storeExists (s : Store) (k : String) : Int :=
  if (storeGet s k).isSome then 1 else 0

/-- A command issued to the Redis backend, either directly or inside a
pipeline. -/
inductive RedisCmd where
  | get (k : String)
  | set (k v : String)
  | del (k : String)
  | existsKey (k : String)
deriving DecidableEq, Repr

/-- The result of one backend command, as surfaced by go-redis `Cmd.Result()`:
a missing key on GET yields the `redis.Nil` error. -/
inductive CmdResult where
  | ok (v : RValue)
  | fail (e : RErr)
deriving DecidableEq, Repr

/-- Execute one command against the store. -/
def execCmd (s : Store) : RedisCmd → CmdResult × Store
  | .get k =>
    match storeGet s k with
    | some v => (.ok (.str v), s)
    | none => (.fail .nilErr, s)
  | .set k v => (.ok (.str "OK"), storeSet s k v)
  | .del k =>
    let (s, n) := storeDel s k
    (.ok (.int n), s)
  | .existsKey k => (.ok (.int (storeExists s k)), s)

/-- Execute a pipeline of commands in order, collecting each command's
result. -/
def execCmds (s : Store) : List RedisCmd → List CmdResult × Store
  | [] => ([], s)
  | c :: cs =>
    let (r, s) := execCmd s c
    let (rs, s) := execCmds s cs
    (r :: rs, s)

/-- The error go-redis `Pipeline.Exec` returns: the error of the first failed
command, if any (`redis.Nil` included). -/
def firstErr (rs : List CmdResult) : Option RErr :=
  rs.findSome? fun r =>
    match r with
    | .ok _ => none
    | .fail e => some e

/-- RedisBatcher.executeRequest (Dockerfile lines 251-284): execute one
request directly against the client, delivering the result or the error, and
recording the backend commands issued. -/
def executeRequest (store : Store) (r : BatchRequest) :
    Delivery × List RedisCmd × Store :=
  if r.type = TypeGet then
    match storeGet store r.key with
    | some v => (.result (.str v), [.get r.key], store)
    | none => (.error .nilErr, [.get r.key], store)
  else if r.type = TypeSet then
    (.result (.str "OK"), [.set r.key r.value], storeSet store r.key r.value)
  else if r.type = TypeDel then
    let (s, n) := storeDel store r.key
    (.result (.int n), [.del r.key], s)
  else if r.type = TypeExists then
    (.result (.int (storeExists store r.key)), [.existsKey r.key], store)
  else
    (.error (.unsupported r.type), [], store)

/-- The mutable state of a RedisBatcher relevant to `Submit`/`Shutdown`
(Dockerfile lines 184-192): whether batching is enabled and whether
`Shutdown` has already closed the `pendingRequests` channel. -/
structure BatcherState where
  enabled : Bool
  pendingClosed : Bool
deriving DecidableEq, Repr

/-- RedisBatcher.Shutdown (Dockerfile lines 240-248): when enabled it closes
the `pendingRequests` channel (and waits for the worker); the Redis client is
closed afterwards in both cases. -/
def Shutdown (b : BatcherState) : BatcherState :=
  if b.enabled then { b with pendingClosed := true } else b

/-- The possible outcomes of `Submit`. -/
inductive SubmitOutcome where
  | executed (d : Delivery) (calls : List RedisCmd) (store : Store)
  | enqueued
  | panicked
deriving DecidableEq, Repr

/-- RedisBatcher.Submit (Dockerfile lines 228-237): with batching disabled the
request is executed immediately on the caller; otherwise it is sent on the
`pendingRequests` channel — a send on a closed Go channel panics the
runtime, modelled by the `panicked` outcome. -/
def Submit (b : BatcherState) (store : Store) (r : BatchRequest) :
    SubmitOutcome :=
  if !b.enabled then
    let (d, cs, s) := executeRequest store r
    .executed d cs s
  else if b.pendingClosed then .panicked
  else .enqueued

/-- Character loop of splitKeyValue (Dockerfile lines 518-537): the first
colon met while `inKey` holds switches to accumulating the value and is
skipped; every other character extends the current accumulator. -/
def splitKeyValueAux : List Char → Bool → List Char → List Char → List String
  | [], _, key, value => [⟨key⟩, ⟨value⟩]
  | c :: rest, inKey, key, value =>
    if c = ':' ∧ inKey then splitKeyValueAux rest false key value
    else if inKey then splitKeyValueAux rest inKey (key ++ [c]) value
    else splitKeyValueAux rest inKey key (value ++ [c])

/-- splitKeyValue (Dockerfile lines 518-537): split a `key:value` grouping
string at its first colon, returning the two-element list `[key, value]`. -/
def splitKeyValue (keyValue : String) : List String :=
  splitKeyValueAux keyValue.data true [] []

/-- Append a request to its group in one of the grouping maps: Go map
insertion `m[key] = append(m[key], request)`, with insertion order of fresh
keys kept explicit. -/
def addToGroup (gs : List (String × List (Nat × BatchRequest))) (k : String)
    (x : Nat × BatchRequest) : List (String × List (Nat × BatchRequest)) :=
  match gs with
  | [] => [(k, [x])]
  | (k1, xs) :: rest =>
    if k1 = k then (k1, xs ++ [x]) :: rest
    else (k1, xs) :: addToGroup rest k x

/-- The four grouping maps of RedisBatcher.processBatch (Dockerfile lines
343-346) plus the error deliveries made immediately for unsupported request
types during the grouping loop (line 365). -/
structure Grouped where
  gets : List (String × List (Nat × BatchRequest))
  sets : List (String × List (Nat × BatchRequest))
  dels : List (String × List (Nat × BatchRequest))
  existsGroups : List (String × List (Nat × BatchRequest))
  unsupported : List (Nat × Delivery)
deriving Repr

/-- The empty grouping state. -/
def Grouped.empty : Grouped := ⟨[], [], [], [], []⟩

/-- One step of the grouping loop of processBatch (Dockerfile lines
350-367): Get/Del/Exists group by key, Set by the string `key + ":" + value`,
anything else gets an `unsupported request type` error at once. -/
def addReq (g : Grouped) (p : Nat × BatchRequest) : Grouped :=
  let r := p.2
  if r.type = TypeGet then { g with gets := addToGroup g.gets r.key p }
  else if r.type = TypeSet then
    { g with sets := addToGroup g.sets (r.key ++ ":" ++ r.value) p }
  else if r.type = TypeDel then { g with dels := addToGroup g.dels r.key p }
  else if r.type = TypeExists then
    { g with existsGroups := addToGroup g.existsGroups r.key p }
  else
    { g with unsupported :=
        g.unsupported ++ [(p.1, Delivery.error (RErr.unsupported r.type))] }

/-- The grouping loop of processBatch over a whole batch. -/
def groupBatch (batch : List (Nat × BatchRequest)) : Grouped :=
  batch.foldl addReq Grouped.empty

/-- The pipelined SET command built for one Set group (Dockerfile lines
394-403): the grouping string is split back with splitKeyValue and the
command is only queued when the split has two parts. -/
def setCmdOf (p : String × List (Nat × BatchRequest)) :
    Option (RedisCmd × List (Nat × BatchRequest)) :=
  match splitKeyValue p.1 with
  | [k, v] => some (.set k v, p.2)
  | _ => none

/-- The commands queued on the pipeline by processBatch, one per group, in
the order the source queues them: GETs, then SETs, then DELs, then EXISTS
(Dockerfile lines 374-431). -/
def pipelineCmdsOf (g : Grouped) : List RedisCmd :=
  g.gets.map (fun p => .get p.1)
    ++ (g.sets.filterMap setCmdOf).map Prod.fst
    ++ g.dels.map (fun p => .del p.1)
    ++ g.existsGroups.map (fun p => .existsKey p.1)

/-- The member lists of the groups, aligned with `pipelineCmdsOf`. -/
def pipelineGroupsOf (g : Grouped) : List (List (Nat × BatchRequest)) :=
  g.gets.map Prod.snd
    ++ (g.sets.filterMap setCmdOf).map Prod.snd
    ++ g.dels.map Prod.snd
    ++ g.existsGroups.map Prod.snd

/-- Distribution of per-command results to the members of each group
(Dockerfile lines 470-512): each member of a group receives the group
command's value on its result channel, or the command's error on its error
channel. -/
def deliverGroups :
    List (List (Nat × BatchRequest)) → List CmdResult → List (Nat × Delivery)
  | [], _ => []
  | _, [] => []
  | reqs :: gs, r :: rs =>
    reqs.map (fun p =>
      (p.1, match r with
            | .ok v => Delivery.result v
            | .fail e => Delivery.error e))
      ++ deliverGroups gs rs

/-- RedisBatcher.processBatch (Dockerfile lines 337-515): group the batch,
queue one pipelined command per group, execute the pipeline, and deliver.
`tdown = some msg` models a transport failure of `pipe.Exec`; otherwise
`Exec` surfaces the first failed command's error (including `redis.Nil` of a
missing GET key), in which case every grouped request receives that error
(lines 434-467); with no error each group's members receive the group's own
command result (lines 470-512). -/
def processBatchDeliveries (store : Store) (tdown : Option String)
    (batch : List (Nat × BatchRequest)) : List (Nat × Delivery) :=
  if batch.isEmpty then []
  else
    let g := groupBatch batch
    let cmds := pipelineCmdsOf g
    let groups := pipelineGroupsOf g
    match tdown with
    | some msg =>
      g.unsupported
        ++ (groups.flatten.map fun p => (p.1, Delivery.error (.transport msg)))
    | none =>
      let results := (execCmds store cmds).1
      match firstErr results with
      | some e =>
        g.unsupported
          ++ (groups.flatten.map fun p => (p.1, Delivery.error e))
      | none => g.unsupported ++ deliverGroups groups results

/-- What the worker's select can observe during the collection phase of one
batch (Dockerfile lines 307-320): another request arrives, the window timer
fires, or the submission channel is found closed. -/
inductive WorkerEv where
  | arrive (id : Nat) (r : BatchRequest)
  | timerFires
  | closed
deriving DecidableEq, Repr

/-- The collectLoop of processRequestsLoop (Dockerfile lines 306-320): while
the batch is below maxBatchSize, an arriving request is appended and the loop
continues; the timer firing or the channel closing ends collection.  An
exhausted event list stands for the timer firing with nothing else pending. -/
def collectLoop (maxB : Nat) :
    List (Nat × BatchRequest) → List WorkerEv → List (Nat × BatchRequest)
  | batch, [] => batch
  | batch, ev :: rest =>
    if batch.length < maxB then
      match ev with
      | .arrive i r => collectLoop maxB (batch ++ [(i, r)]) rest
      | .timerFires => batch
      | .closed => batch
    else batch

/-- One iteration of processRequestsLoop after the first request of a new
batch has been read (Dockerfile lines 290-333): collect up to maxBatchSize
requests, then process the batch. -/
def workerIter (maxB : Nat) (store : Store) (tdown : Option String)
    (firstId : Nat) (first : BatchRequest) (evs : List WorkerEv) :
    List (Nat × Delivery) :=
  processBatchDeliveries store tdown (collectLoop maxB [(firstId, first)] evs)

/-- Record a key in a list of already-seen keys, preserving first-occurrence
order: the effect one Go map insertion has on the map's key set. -/
def insKey (ks : List String) (k : String) : List String :=
  if k ∈ ks then ks else ks ++ [k]

/-- The grouping string a request contributes to the Get map, if any. -/
def getKeyOf (p : Nat × BatchRequest) : Option String :=
  if p.2.type = TypeGet then some p.2.key else none

/-- The grouping string a request contributes to the Set map, if any: the
source's `fmt.Sprintf("%s:%s", request.Key, request.Value)`. -/
def setKeyOf (p : Nat × BatchRequest) : Option String :=
  if p.2.type = TypeSet then some (p.2.key ++ ":" ++ p.2.value) else none

/-- The grouping string a request contributes to the Del map, if any. -/
def delKeyOf (p : Nat × BatchRequest) : Option String :=
  if p.2.type = TypeDel then some p.2.key else none

/-- The grouping string a request contributes to the Exists map, if any. -/
def existsKeyOf (p : Nat × BatchRequest) : Option String :=
  if p.2.type = TypeExists then some p.2.key else none

/-- The immediate error delivery processBatch makes for a request of
unrecognized type during grouping, if any. -/
def unsupDeliveryOf (p : Nat × BatchRequest) : Option (Nat × Delivery) :=
  if p.2.type = TypeGet then none
  else if p.2.type = TypeSet then none
  else if p.2.type = TypeDel then none
  else if p.2.type = TypeExists then none
  else some (p.1, Delivery.error (RErr.unsupported p.2.type))

/-- The member lists of all groups without the Set command filter. -/
def plainGroups (g : Grouped) : List (List (Nat × BatchRequest)) :=
  g.gets.map Prod.snd ++ g.sets.map Prod.snd ++ g.dels.map Prod.snd
    ++ g.existsGroups.map Prod.snd

/-- The grouping key the specification assigns to each supported operation
(spec section 3): `(key)` for Get, Del and Exists, the tuple `(key, value)`
for Set; `none` for an unrecognized operation.  This definition follows the
spec's words and exists to be compared against the grouping the code
performs. -/
inductive SpecKey where
  | getK (key : String)
  | setK (key value : String)
  | delK (key : String)
  | existsK (key : String)
deriving DecidableEq, Repr

/-- Spec-side grouping key of a request (spec section 3 table). -/
def specGroupingKey (r : BatchRequest) : Option SpecKey :=
  if r.type = TypeGet then some (.getK r.key)
  else if r.type = TypeSet then some (.setK r.key r.value)
  else if r.type = TypeDel then some (.delK r.key)
  else if r.type = TypeExists then some (.existsK r.key)
  else none

end Redis

namespace Front

/-- What the /redis/set handler does with a validated request: reject with an
HTTP status and message without submitting, or submit a Set request to the
batcher. -/
inductive SetAction where
  | reject (status : Nat) (msg : String)
  | submit (key value : String)
deriving DecidableEq, Repr

/-- Go's `r.URL.Query().Get(name)`: the first value bound to `name`, or the
empty string when the parameter is absent. -/
def queryGet (params : List (String × String)) (name : String) : String :=
  match List.find? (fun q => q.1 = name) params with
  | some q => q.2
  | none => ""

/-- BatchingAgent.handleSet (unnamed/part_003 lines 178-204): an empty or
absent `key` is rejected 400, then an empty or absent `value` is rejected
400; otherwise a Set request with the two parameters is submitted. -/
def handleSet (params : List (String × String)) : SetAction :=
  let key := queryGet params "key"
  if key = "" then .reject 400 "Missing required parameter: key"
  else
    let value := queryGet params "value"
    if value = "" then .reject 400 "Missing required parameter: value"
    else .submit key value

end Front

namespace Lifecycle

/-- The observable shutdown steps of the agent. -/
inductive Ev where
  | serverShutdown
  | batcherShutdown
  | executorRelease
deriving DecidableEq, Repr

/-- RedisBatcher.Shutdown (Dockerfile lines 240-248): close the channel and
wait for the worker, then close the Redis client — the executor release thus
happens inside the batcher's own Shutdown. -/
def redisBatcherShutdownEvents : List Ev := [.batcherShutdown, .executorRelease]

/-- BatchingAgent.Shutdown (unnamed/part_003 lines 119-124, identically
unnamed/part_009 lines 139-144): call the batcher's Shutdown first, then shut
down the HTTP server with the signal handler's 10-second context. -/
def agentShutdownEvents : List Ev :=
  redisBatcherShutdownEvents ++ [.serverShutdown]

/-- The order the claim states, following the spec's words: server first,
then batcher, then executor release. -/
def specShutdownOrder (t : List Ev) : Prop :=
  t.indexOf .serverShutdown < t.indexOf .batcherShutdown ∧
  t.indexOf .batcherShutdown < t.indexOf .executorRelease

instance (t : List Ev) : Decidable (specShutdownOrder t) := by
  unfold specShutdownOrder; infer_instance

end Lifecycle

namespace S3

/-- Operation type constants of the S3 batcher (unnamed/part_010 and
part_011, lines 14-18). -/
def TypeGetObject : String := "GetObject"

/-- Operation type constant for ListObjects. -/
def TypeListObjects : String := "ListObjects"

/-- Operation type constant for ListBuckets. -/
def TypeListBuckets : String := "ListBuckets"

/-- A batchable S3 request (part_010/part_011 lines 21-29); `pfx` embeds the
source's `Prefix` field. -/
structure BatchRequest where
  type : String
  bucketName : String := ""
  key : String := ""
  pfx : String := ""
  maxKeys : Int := 0
deriving DecidableEq, Repr

/-- Stored object data of the S3 backend. -/
structure ObjectData where
  contentType : String
  bytes : List Nat
deriving DecidableEq, Repr

/-- The S3 backend: bucket names and objects addressed by (bucket, key). -/
structure Backend where
  buckets : List String
  objects : List ((String × String) × ObjectData)
deriving DecidableEq, Repr

/-- S3 GetObject lookup. -/
def s3GetObject (b : Backend) (bucket key : String) : Option ObjectData :=
  (List.find? (fun o => o.1 = (bucket, key)) b.objects).map Prod.snd

/-- S3 ListObjectsV2: keys of `bucket` starting with `pfx`, at most
`maxKeys`. -/
def s3ListObjects (b : Backend) (bucket pfx : String) (maxKeys : Int) :
    List String :=
  ((b.objects.filter (fun o => o.1.1 = bucket ∧ pfx.isPrefixOf o.1.2)).map
    (fun o => o.1.2)).take maxKeys.toNat

/-- The streaming bodies handed out by GetObject responses: each body is a
one-shot stream holding its remaining bytes and whether it was closed.
Bodies are identified by their index in this store. -/
structure BodyStore where
  bodies : List (List Nat × Bool)
deriving DecidableEq, Repr

/-- A GetObjectOutput as delivered to a caller: the metadata plus a handle to
the (possibly shared) body stream. -/
structure GetObjectOutput where
  contentType : String
  contentLength : Nat
  bodyId : Nat
deriving DecidableEq, Repr

/-- A successful S3 result. -/
inductive S3Out where
  | getObjectOut (o : GetObjectOutput)
  | listObjectsOut (keys : List String)
  | listBucketsOut (names : List String)
deriving DecidableEq, Repr

/-- A delivery on one of an S3 request's two channels. -/
inductive Delivery where
  | result (o : S3Out)
  | error (e : String)
deriving DecidableEq, Repr

/-- S3Batcher.executeGroupedRequests (unnamed/part_011 lines 178-249):
execute ONE backend call for the first request of the group and send the one
result — for GetObject the one GetObjectOutput with its single body stream —
to every member; on error every member receives the error; an unsupported
type sends the `unsupported request type` error to every member. -/
def executeGroupedRequests (b : Backend) (bodies : BodyStore)
    (reqs : List (Nat × BatchRequest)) :
    List (Nat × Delivery) × BodyStore :=
  match reqs with
  | [] => ([], bodies)
  | first :: _ =>
    let r := first.2
    if r.type = TypeGetObject then
      match s3GetObject b r.bucketName r.key with
      | some obj =>
        let bid := bodies.bodies.length
        let bodies := BodyStore.mk (bodies.bodies ++ [(obj.bytes, false)])
        (reqs.map (fun p =>
          (p.1, Delivery.result (.getObjectOut
            ⟨obj.contentType, obj.bytes.length, bid⟩))), bodies)
      | none => (reqs.map (fun p => (p.1, Delivery.error "NoSuchKey")), bodies)
    else if r.type = TypeListObjects then
      (reqs.map (fun p =>
        (p.1, Delivery.result
          (.listObjectsOut (s3ListObjects b r.bucketName r.pfx r.maxKeys)))),
       bodies)
    else if r.type = TypeListBuckets then
      (reqs.map (fun p =>
        (p.1, Delivery.result (.listBucketsOut b.buckets))), bodies)
    else
      (reqs.map (fun p =>
        (p.1, Delivery.error ("unsupported request type: " ++ r.type))),
       bodies)

/-- Draining and closing a response body, as handleGetObject does with
io.Copy followed by Body.Close (unnamed/part_009 lines 277-284): the stream's
remaining bytes are returned and the stream is left empty and closed. -/
def drainAndClose (bodies : BodyStore) (bid : Nat) :
    List Nat × BodyStore :=
  match bodies.bodies.get? bid with
  | some (bs, _) =>
    (bs, BodyStore.mk (bodies.bodies.set bid ([], true)))
  | none => ([], bodies)

/-- The two capacity-one delivery channels of one request of the earlier
S3Batcher revision (unnamed/part_010): each slot holds at most one pending
value. -/
structure Chans where
  res : Option String := none
  err : Option String := none
deriving DecidableEq, Repr

/-- The forwarding loop of part_010's processBatch (lines 161-207): for each
further member the worker selects on the FIRST member's channels, taking
whatever is pending there and re-sending it to the current member.  When both
of the first member's channels are empty the select blocks the worker
forever, modelled as `none`. -/
def forwardFromFirst (first : Chans) :
    List Chans → Option (Chans × List Chans)
  | [] => some (first, [])
  | c :: cs =>
    match first.res with
    | some v =>
      (forwardFromFirst { first with res := none } cs).map
        (fun q => (q.1, { c with res := some v } :: q.2))
    | none =>
      match first.err with
      | some e =>
        (forwardFromFirst { first with err := none } cs).map
          (fun q => (q.1, { c with err := some e } :: q.2))
      | none => none

/-- Processing of one group in part_010's processBatch (lines 161-207): the
first member's request is executed (its result or error lands in the first
member's own channel), then the forwarding loop copies from the first
member's channels to the remaining members.  `execResult` is what the one
backend call produced; the returned list holds each member's channel state
after the group is processed, or `none` when the worker blocked. -/
def part10DistributeGroup (execResult : Except String String) (n : Nat) :
    Option (List Chans) :=
  match n with
  | 0 => some []
  | m + 1 =>
    let first : Chans :=
      match execResult with
      | .ok v => { res := some v }
      | .error e => { err := some e }
    (forwardFromFirst first (List.replicate m {})).map
      (fun q => q.1 :: q.2)

end S3

namespace Redis

/-- splitKeyValueAux always produces a two-element list. -/
theorem splitKeyValueAux_two (cs : List Char) :
    ∀ inKey key value, ∃ a b, splitKeyValueAux cs inKey key value = [a, b] := by
  induction cs with
  | nil => intro inKey key value; exact ⟨⟨key⟩, ⟨value⟩, rfl⟩
  | cons c rest ih =>
    intro inKey key value
    simp only [splitKeyValueAux]
    split
    · exact ih false key value
    · split
      · exact ih inKey (key ++ [c]) value
      · exact ih inKey key (value ++ [c])

/-- splitKeyValue always produces a two-element list. -/
theorem splitKeyValue_two (s : String) : ∃ a b, splitKeyValue s = [a, b] :=
  splitKeyValueAux_two s.data true [] []

/-- Once past the first colon, the rest of the input is appended verbatim to
the value accumulator. -/
theorem splitKeyValueAux_valuePhase (cs : List Char) :
    ∀ key acc, splitKeyValueAux cs false key acc = [⟨key⟩, ⟨acc ++ cs⟩] := by
  induction cs with
  | nil => intro key acc; simp [splitKeyValueAux]
  | cons c rest ih =>
    intro key acc
    simp only [splitKeyValueAux, Bool.false_eq_true, and_false, if_false,
      ite_false]
    rw [ih key (acc ++ [c])]
    simp

/-- While no colon has been seen, characters accumulate into the key; the
first colon switches phases. -/
theorem splitKeyValueAux_keyPhase (ks : List Char) :
    ∀ acc v, ':' ∉ ks →
      splitKeyValueAux (ks ++ ':' :: v) true acc [] = [⟨acc ++ ks⟩, ⟨v⟩] := by
  induction ks with
  | nil =>
    intro acc v _
    simp only [List.nil_append, splitKeyValueAux]
    rw [if_pos (by simp), splitKeyValueAux_valuePhase]
    simp
  | cons k ks ih =>
    intro acc v h
    have hk : k ≠ ':' := fun hc => h (hc ▸ List.mem_cons_self k ks)
    simp only [List.cons_append, splitKeyValueAux]
    rw [if_neg (by simp [hk]), if_pos (by simp)]
    simp only [List.append_eq]
    rw [ih (acc ++ [k]) v (fun hc => h (List.mem_cons_of_mem k hc))]
    simp

/-- When the Set key contains no colon, splitKeyValue inverts the grouping
concatenation exactly. -/
theorem splitKeyValue_of_no_colon (k v : String) (h : ':' ∉ k.data) :
    splitKeyValue (k ++ ":" ++ v) = [k, v] := by
  have hdata : (k ++ ":" ++ v).data = k.data ++ ':' :: v.data := by
    simp [String.data_append]
  rw [splitKeyValue, hdata, splitKeyValueAux_keyPhase k.data [] v.data h]
  simp

/-- Inserting into a grouping map touches its key list the way insKey
does. -/
theorem addToGroup_keys (gs : List (String × List (Nat × BatchRequest)))
    (k : String) (x : Nat × BatchRequest) :
    (addToGroup gs k x).map Prod.fst = insKey (gs.map Prod.fst) k := by
  induction gs with
  | nil => simp [addToGroup, insKey]
  | cons hd rest ih =>
    obtain ⟨k1, xs⟩ := hd
    by_cases hk : k1 = k
    · subst hk
      simp [addToGroup, insKey]
    · simp only [addToGroup, if_neg hk, List.map_cons, ih, insKey]
      by_cases hmem : k ∈ rest.map Prod.fst
      · simp [hmem, Ne.symm hk]
      · simp [hmem, Ne.symm hk]

/-- Inserting into a grouping map appends the new member to the multiset of
all members. -/
theorem addToGroup_members_perm (gs : List (String × List (Nat × BatchRequest)))
    (k : String) (x : Nat × BatchRequest) :
    ((addToGroup gs k x).map Prod.snd).flatten.Perm
      (((gs.map Prod.snd).flatten) ++ [x]) := by
  induction gs with
  | nil => simp [addToGroup]
  | cons hd rest ih =>
    obtain ⟨k1, xs⟩ := hd
    by_cases hk : k1 = k
    · subst hk
      rw [show addToGroup ((k1, xs) :: rest) k1 x = (k1, xs ++ [x]) :: rest
        from by simp [addToGroup]]
      simp only [List.map_cons, List.flatten_cons, List.append_assoc]
      exact List.Perm.append_left xs List.perm_append_comm
    · simp only [addToGroup, if_neg hk, List.map_cons, List.flatten_cons,
        List.append_assoc]
      exact List.Perm.append_left xs ih

/-- Folding insKey preserves freedom from duplicates. -/
theorem foldl_insKey_nodup (l : List String) :
    ∀ acc : List String, acc.Nodup → (List.foldl insKey acc l).Nodup := by
  induction l with
  | nil => intro acc h; exact h
  | cons k rest ih =>
    intro acc h
    refine ih (insKey acc k) ?_
    by_cases hmem : k ∈ acc
    · simpa [insKey, hmem] using h
    · simp only [insKey, if_neg hmem]
      exact List.Nodup.append h (List.nodup_singleton k)
        (by simpa [List.disjoint_singleton] using hmem)

/-- Folding insKey accumulates exactly the keys seen. -/
theorem foldl_insKey_toFinset (l : List String) :
    ∀ acc : List String,
      (List.foldl insKey acc l).toFinset = acc.toFinset ∪ l.toFinset := by
  induction l with
  | nil => intro acc; simp
  | cons k rest ih =>
    intro acc
    rw [List.foldl_cons, ih]
    ext a
    by_cases hmem : k ∈ acc
    · simp only [insKey, if_pos hmem, Finset.mem_union, List.mem_toFinset,
        List.mem_cons]
      constructor
      · rintro (h | h)
        · exact Or.inl h
        · exact Or.inr (Or.inr h)
      · rintro (h | h | h)
        · exact Or.inl h
        · exact Or.inl (by rw [h]; exact hmem)
        · exact Or.inr h
    · simp only [insKey, if_neg hmem, Finset.mem_union, List.mem_toFinset,
        List.mem_append, List.mem_cons, List.not_mem_nil, or_false]
      constructor
      · rintro ((h | h) | h)
        · exact Or.inl h
        · exact Or.inr (Or.inl h)
        · exact Or.inr (Or.inr h)
      · rintro (h | h | h)
        · exact Or.inl (Or.inl h)
        · exact Or.inl (Or.inr h)
        · exact Or.inr h

/-- The number of keys a sequence of map insertions leaves equals the number
of distinct keys inserted. -/
theorem foldl_insKey_length (l : List String) :
    (List.foldl insKey [] l).length = l.dedup.length := by
  have hnd : (List.foldl insKey [] l).Nodup :=
    foldl_insKey_nodup l [] List.nodup_nil
  have hts : (List.foldl insKey [] l).toFinset = l.toFinset := by
    rw [foldl_insKey_toFinset l []]; simp
  calc (List.foldl insKey [] l).length
      = (List.foldl insKey [] l).toFinset.card :=
        (List.toFinset_card_of_nodup hnd).symm
    _ = l.toFinset.card := by rw [hts]
    _ = l.dedup.length := List.card_toFinset l

/-- The Set command filter keeps every group (splitKeyValue always yields two
parts): the member lists survive untouched. -/
theorem sets_filterMap_snd (l : List (String × List (Nat × BatchRequest))) :
    (l.filterMap setCmdOf).map Prod.snd = l.map Prod.snd := by
  induction l with
  | nil => rfl
  | cons hd rest ih =>
    obtain ⟨a, b, hab⟩ := splitKeyValue_two hd.1
    simp [List.filterMap_cons, setCmdOf, hab, ih]

/-- The Set command filter keeps every group: the count survives. -/
theorem sets_filterMap_length (l : List (String × List (Nat × BatchRequest))) :
    (l.filterMap setCmdOf).length = l.length := by
  have := congrArg List.length (sets_filterMap_snd l)
  simpa using this

/-- addReq on a Get request. -/
theorem addReq_get (g : Grouped) (p : Nat × BatchRequest)
    (h : p.2.type = TypeGet) :
    addReq g p = { g with gets := addToGroup g.gets p.2.key p } := by
  simp only [addReq]; rw [if_pos h]

/-- addReq on a Set request. -/
theorem addReq_set (g : Grouped) (p : Nat × BatchRequest)
    (h1 : p.2.type ≠ TypeGet) (h : p.2.type = TypeSet) :
    addReq g p =
      { g with sets := addToGroup g.sets (p.2.key ++ ":" ++ p.2.value) p } := by
  simp only [addReq]; rw [if_neg h1, if_pos h]

/-- addReq on a Del request. -/
theorem addReq_del (g : Grouped) (p : Nat × BatchRequest)
    (h1 : p.2.type ≠ TypeGet) (h2 : p.2.type ≠ TypeSet)
    (h : p.2.type = TypeDel) :
    addReq g p = { g with dels := addToGroup g.dels p.2.key p } := by
  simp only [addReq]; rw [if_neg h1, if_neg h2, if_pos h]

/-- addReq on an Exists request. -/
theorem addReq_exists (g : Grouped) (p : Nat × BatchRequest)
    (h1 : p.2.type ≠ TypeGet) (h2 : p.2.type ≠ TypeSet)
    (h3 : p.2.type ≠ TypeDel) (h : p.2.type = TypeExists) :
    addReq g p =
      { g with existsGroups := addToGroup g.existsGroups p.2.key p } := by
  simp only [addReq]; rw [if_neg h1, if_neg h2, if_neg h3, if_pos h]

/-- addReq on an unsupported request. -/
theorem addReq_unsupported (g : Grouped) (p : Nat × BatchRequest)
    (h1 : p.2.type ≠ TypeGet) (h2 : p.2.type ≠ TypeSet)
    (h3 : p.2.type ≠ TypeDel) (h4 : p.2.type ≠ TypeExists) :
    addReq g p =
      { g with unsupported := g.unsupported
          ++ [(p.1, Delivery.error (RErr.unsupported p.2.type))] } := by
  simp only [addReq]; rw [if_neg h1, if_neg h2, if_neg h3, if_neg h4]

/-- The grouping loop, componentwise: each grouping map's key list evolves by
insKey over the keys its requests contribute, and the unsupported deliveries
accumulate in order. -/
theorem foldl_addReq_spec (l : List (Nat × BatchRequest)) :
    ∀ g : Grouped,
      (l.foldl addReq g).gets.map Prod.fst =
        List.foldl insKey (g.gets.map Prod.fst) (l.filterMap getKeyOf)
      ∧ (l.foldl addReq g).sets.map Prod.fst =
        List.foldl insKey (g.sets.map Prod.fst) (l.filterMap setKeyOf)
      ∧ (l.foldl addReq g).dels.map Prod.fst =
        List.foldl insKey (g.dels.map Prod.fst) (l.filterMap delKeyOf)
      ∧ (l.foldl addReq g).existsGroups.map Prod.fst =
        List.foldl insKey (g.existsGroups.map Prod.fst)
          (l.filterMap existsKeyOf)
      ∧ (l.foldl addReq g).unsupported =
        g.unsupported ++ l.filterMap unsupDeliveryOf := by
  induction l with
  | nil => intro g; simp
  | cons p rest ih =>
    intro g
    by_cases h1 : p.2.type = TypeGet
    · have h2 : p.2.type ≠ TypeSet := by rw [h1]; decide
      have h3 : p.2.type ≠ TypeDel := by rw [h1]; decide
      have h4 : p.2.type ≠ TypeExists := by rw [h1]; decide
      have e1 : getKeyOf p = some p.2.key := by rw [getKeyOf, if_pos h1]
      have e2 : setKeyOf p = none := by rw [setKeyOf, if_neg h2]
      have e3 : delKeyOf p = none := by rw [delKeyOf, if_neg h3]
      have e4 : existsKeyOf p = none := by rw [existsKeyOf, if_neg h4]
      have e5 : unsupDeliveryOf p = none := by rw [unsupDeliveryOf, if_pos h1]
      simp only [List.foldl_cons, addReq_get g p h1, List.filterMap_cons,
        e1, e2, e3, e4, e5]
      refine ⟨?_, (ih _).2.1, (ih _).2.2.1, (ih _).2.2.2.1, (ih _).2.2.2.2⟩
      rw [(ih _).1]
      simp [addToGroup_keys]
    · by_cases h2 : p.2.type = TypeSet
      · have h3 : p.2.type ≠ TypeDel := by rw [h2]; decide
        have h4 : p.2.type ≠ TypeExists := by rw [h2]; decide
        have e1 : getKeyOf p = none := by rw [getKeyOf, if_neg h1]
        have e2 : setKeyOf p = some (p.2.key ++ ":" ++ p.2.value) := by
          rw [setKeyOf, if_pos h2]
        have e3 : delKeyOf p = none := by rw [delKeyOf, if_neg h3]
        have e4 : existsKeyOf p = none := by rw [existsKeyOf, if_neg h4]
        have e5 : unsupDeliveryOf p = none := by
          rw [unsupDeliveryOf, if_neg h1, if_pos h2]
        simp only [List.foldl_cons, addReq_set g p h1 h2,
          List.filterMap_cons, e1, e2, e3, e4, e5]
        refine ⟨(ih _).1, ?_, (ih _).2.2.1, (ih _).2.2.2.1, (ih _).2.2.2.2⟩
        rw [(ih _).2.1]
        simp [addToGroup_keys]
      · by_cases h3 : p.2.type = TypeDel
        · have h4 : p.2.type ≠ TypeExists := by rw [h3]; decide
          have e1 : getKeyOf p = none := by rw [getKeyOf, if_neg h1]
          have e2 : setKeyOf p = none := by rw [setKeyOf, if_neg h2]
          have e3 : delKeyOf p = some p.2.key := by rw [delKeyOf, if_pos h3]
          have e4 : existsKeyOf p = none := by rw [existsKeyOf, if_neg h4]
          have e5 : unsupDeliveryOf p = none := by
            rw [unsupDeliveryOf, if_neg h1, if_neg h2, if_pos h3]
          simp only [List.foldl_cons, addReq_del g p h1 h2 h3,
            List.filterMap_cons, e1, e2, e3, e4, e5]
          refine ⟨(ih _).1, (ih _).2.1, ?_, (ih _).2.2.2.1, (ih _).2.2.2.2⟩
          rw [(ih _).2.2.1]
          simp [addToGroup_keys]
        · by_cases h4 : p.2.type = TypeExists
          · have e1 : getKeyOf p = none := by rw [getKeyOf, if_neg h1]
            have e2 : setKeyOf p = none := by rw [setKeyOf, if_neg h2]
            have e3 : delKeyOf p = none := by rw [delKeyOf, if_neg h3]
            have e4 : existsKeyOf p = some p.2.key := by
              rw [existsKeyOf, if_pos h4]
            have e5 : unsupDeliveryOf p = none := by
              rw [unsupDeliveryOf, if_neg h1, if_neg h2, if_neg h3, if_pos h4]
            simp only [List.foldl_cons, addReq_exists g p h1 h2 h3 h4,
              List.filterMap_cons, e1, e2, e3, e4, e5]
            refine ⟨(ih _).1, (ih _).2.1, (ih _).2.2.1, ?_, (ih _).2.2.2.2⟩
            rw [(ih _).2.2.2.1]
            simp [addToGroup_keys]
          · have e1 : getKeyOf p = none := by rw [getKeyOf, if_neg h1]
            have e2 : setKeyOf p = none := by rw [setKeyOf, if_neg h2]
            have e3 : delKeyOf p = none := by rw [delKeyOf, if_neg h3]
            have e4 : existsKeyOf p = none := by rw [existsKeyOf, if_neg h4]
            have e5 : unsupDeliveryOf p =
                some (p.1, Delivery.error (RErr.unsupported p.2.type)) := by
              rw [unsupDeliveryOf, if_neg h1, if_neg h2, if_neg h3, if_neg h4]
            simp only [List.foldl_cons, addReq_unsupported g p h1 h2 h3 h4,
              List.filterMap_cons, e1, e2, e3, e4, e5]
            refine ⟨(ih _).1, (ih _).2.1, (ih _).2.2.1, (ih _).2.2.2.1, ?_⟩
            rw [(ih _).2.2.2.2]
            simp

/-- A pipeline returns one result per command. -/
theorem execCmds_length (cs : List RedisCmd) :
    ∀ s : Store, ((execCmds s cs).1).length = cs.length := by
  induction cs with
  | nil => intro s; rfl
  | cons c rest ih =>
    intro s
    simp only [execCmds]
    simpa using ih (execCmd s c).2

/-- The pipeline has exactly as many commands as groups. -/
theorem pipelineCmds_length_eq_groups (g : Grouped) :
    (pipelineCmdsOf g).length = (pipelineGroupsOf g).length := by
  simp [pipelineCmdsOf, pipelineGroupsOf]

/-- With one result per group, distribution addresses exactly the members of
the groups. -/
theorem deliverGroups_fst (gs : List (List (Nat × BatchRequest))) :
    ∀ rs : List CmdResult, gs.length = rs.length →
      (deliverGroups gs rs).map Prod.fst = (gs.flatten).map Prod.fst := by
  induction gs with
  | nil => intro rs _; cases rs <;> rfl
  | cons grp gs ih =>
    intro rs hlen
    match rs with
    | [] => simp at hlen
    | r :: rs =>
      simp only [deliverGroups, List.map_append, List.flatten_cons,
        List.map_map]
      rw [ih rs (by simpa using hlen)]
      rfl

/-- The member lists reachable through the Set command filter are exactly the
plain member lists. -/
theorem pipelineGroupsOf_eq_plain (g : Grouped) :
    pipelineGroupsOf g = plainGroups g := by
  rw [pipelineGroupsOf, plainGroups, sets_filterMap_snd]

/-- One grouping step accounts for exactly the id of the request grouped:
the ids spread over the unsupported deliveries and the group members grow by
that one id. -/
theorem addReq_ids_perm (g : Grouped) (p : Nat × BatchRequest) :
    ((addReq g p).unsupported.map Prod.fst
      ++ (plainGroups (addReq g p)).flatten.map Prod.fst).Perm
    ((g.unsupported.map Prod.fst
      ++ (plainGroups g).flatten.map Prod.fst) ++ [p.1]) := by
  rw [List.perm_iff_count]
  intro a
  by_cases h1 : p.2.type = TypeGet
  · rw [addReq_get g p h1]
    have hcnt :=
      ((addToGroup_members_perm g.gets p.2.key p).map Prod.fst).count_eq a
    simp only [List.map_append, List.count_append] at hcnt
    simp only [plainGroups, List.flatten_append, List.map_append,
      List.count_append]
    simp only [List.map_cons, List.map_nil] at hcnt
    omega
  · by_cases h2 : p.2.type = TypeSet
    · rw [addReq_set g p h1 h2]
      have hcnt :=
        ((addToGroup_members_perm g.sets (p.2.key ++ ":" ++ p.2.value) p).map
          Prod.fst).count_eq a
      simp only [List.map_append, List.count_append] at hcnt
      simp only [plainGroups, List.flatten_append, List.map_append,
        List.count_append]
      simp only [List.map_cons, List.map_nil] at hcnt
      omega
    · by_cases h3 : p.2.type = TypeDel
      · rw [addReq_del g p h1 h2 h3]
        have hcnt :=
          ((addToGroup_members_perm g.dels p.2.key p).map Prod.fst).count_eq a
        simp only [List.map_append, List.count_append] at hcnt
        simp only [plainGroups, List.flatten_append, List.map_append,
          List.count_append]
        simp only [List.map_cons, List.map_nil] at hcnt
        omega
      · by_cases h4 : p.2.type = TypeExists
        · rw [addReq_exists g p h1 h2 h3 h4]
          have hcnt :=
            ((addToGroup_members_perm g.existsGroups p.2.key p).map
              Prod.fst).count_eq a
          simp only [List.map_append, List.count_append] at hcnt
          simp only [plainGroups, List.flatten_append, List.map_append,
            List.count_append]
          simp only [List.map_cons, List.map_nil] at hcnt
          omega
        · rw [addReq_unsupported g p h1 h2 h3 h4]
          simp only [plainGroups, List.flatten_append, List.map_append,
            List.count_append, List.map_cons, List.map_nil]
          omega

/-- The grouping loop distributes the batch's request ids across the
unsupported deliveries and the group member lists: nothing is lost and
nothing is duplicated. -/
theorem foldl_addReq_ids_perm (l : List (Nat × BatchRequest)) :
    ∀ g : Grouped,
      ((l.foldl addReq g).unsupported.map Prod.fst
        ++ ((plainGroups (l.foldl addReq g)).flatten.map Prod.fst)).Perm
      ((g.unsupported.map Prod.fst
        ++ ((plainGroups g).flatten.map Prod.fst)) ++ l.map Prod.fst) := by
  induction l with
  | nil => intro g; simp
  | cons p rest ih =>
    intro g
    have h1 := ih (addReq g p)
    have h2 := (addReq_ids_perm g p).append_right (rest.map Prod.fst)
    have h3 := h1.trans h2
    simp only [List.map_cons]
    have h4 : ((g.unsupported.map Prod.fst
        ++ (plainGroups g).flatten.map Prod.fst) ++ [p.1])
          ++ rest.map Prod.fst
        = (g.unsupported.map Prod.fst
        ++ (plainGroups g).flatten.map Prod.fst)
          ++ (p.1 :: rest.map Prod.fst) := by
      simp
    exact h4 ▸ h3

/-- processBatch delivers to exactly the requests of the batch: the multiset
of request ids receiving a delivery is the multiset of ids admitted. -/
theorem processBatch_ids_perm (store : Store) (tdown : Option String)
    (batch : List (Nat × BatchRequest)) :
    ((processBatchDeliveries store tdown batch).map Prod.fst).Perm
      (batch.map Prod.fst) := by
  cases batch with
  | nil => simp [processBatchDeliveries]
  | cons q qs =>
    have hids : (((groupBatch (q :: qs)).unsupported.map Prod.fst)
        ++ ((plainGroups (groupBatch (q :: qs))).flatten.map Prod.fst)).Perm
        ((q :: qs).map Prod.fst) := by
      simpa [Grouped.empty, plainGroups, groupBatch] using
        foldl_addReq_ids_perm (q :: qs) Grouped.empty
    rw [show processBatchDeliveries store tdown (q :: qs)
        = (let g := groupBatch (q :: qs)
           let cmds := pipelineCmdsOf g
           let groups := pipelineGroupsOf g
           match tdown with
           | some msg =>
             g.unsupported
               ++ (groups.flatten.map fun p =>
                    (p.1, Delivery.error (.transport msg)))
           | none =>
             let results := (execCmds store cmds).1
             match firstErr results with
             | some e =>
               g.unsupported
                 ++ (groups.flatten.map fun p => (p.1, Delivery.error e))
             | none => g.unsupported ++ deliverGroups groups results)
      from by rw [processBatchDeliveries]; rfl]
    cases tdown with
    | some msg =>
      simp only [List.map_append, List.map_map, pipelineGroupsOf_eq_plain]
      refine List.Perm.trans ?_ hids
      apply List.Perm.append_left
      apply List.Perm.of_eq
      simp [Function.comp_def]
    | none =>
      cases hres : firstErr (execCmds store
          (pipelineCmdsOf (groupBatch (q :: qs)))).1 with
      | some e =>
        simp only [hres, List.map_append, List.map_map,
          pipelineGroupsOf_eq_plain]
        refine List.Perm.trans ?_ hids
        apply List.Perm.append_left
        apply List.Perm.of_eq
        simp [Function.comp_def]
      | none =>
        have hlen : (pipelineGroupsOf (groupBatch (q :: qs))).length =
            ((execCmds store (pipelineCmdsOf (groupBatch (q :: qs)))).1).length := by
          rw [execCmds_length]
          exact (pipelineCmds_length_eq_groups _).symm
        simp only [hres, List.map_append]
        rw [deliverGroups_fst _ _ hlen]
        rw [pipelineGroupsOf_eq_plain]
        exact hids

/-- The collection loop never grows a batch past maxBatchSize. -/
theorem collectLoop_length_le (maxB : Nat) (evs : List WorkerEv) :
    ∀ batch : List (Nat × BatchRequest), batch.length ≤ maxB →
      (collectLoop maxB batch evs).length ≤ maxB := by
  induction evs with
  | nil => intro batch h; exact h
  | cons ev rest ih =>
    intro batch h
    simp only [collectLoop]
    by_cases hlt : batch.length < maxB
    · rw [if_pos hlt]
      cases ev with
      | arrive i r => exact ih _ (by simpa using Nat.succ_le_of_lt hlt)
      | timerFires => exact h
      | closed => exact h
    · rw [if_neg hlt]; exact h

/-- A full batch ends collection at once, whatever is still pending. -/
theorem collectLoop_full (maxB : Nat) (evs : List WorkerEv)
    (batch : List (Nat × BatchRequest)) (h : maxB ≤ batch.length) :
    collectLoop maxB batch evs = batch := by
  cases evs with
  | nil => rfl
  | cons ev rest =>
    simp only [collectLoop]
    rw [if_neg (Nat.not_lt.mpr h)]

/-- The window timer firing ends collection at once. -/
theorem collectLoop_timer (maxB : Nat) (evs : List WorkerEv)
    (batch : List (Nat × BatchRequest)) :
    collectLoop maxB batch (WorkerEv.timerFires :: evs) = batch := by
  simp only [collectLoop]
  by_cases hlt : batch.length < maxB
  · rw [if_pos hlt]
  · rw [if_neg hlt]

/-- The submission channel closing ends collection at once, keeping the
admitted requests. -/
theorem collectLoop_closed (maxB : Nat) (evs : List WorkerEv)
    (batch : List (Nat × BatchRequest)) :
    collectLoop maxB batch (WorkerEv.closed :: evs) = batch := by
  simp only [collectLoop]
  by_cases hlt : batch.length < maxB
  · rw [if_pos hlt]
  · rw [if_neg hlt]

/-- The number of pipelined commands processBatch issues equals the number of
distinct grouping strings per operation type. -/
theorem pipelineCmds_count (batch : List (Nat × BatchRequest)) :
    (pipelineCmdsOf (groupBatch batch)).length =
      (batch.filterMap getKeyOf).dedup.length
      + (batch.filterMap setKeyOf).dedup.length
      + (batch.filterMap delKeyOf).dedup.length
      + (batch.filterMap existsKeyOf).dedup.length := by
  obtain ⟨e1, e2, e3, e4, _⟩ := foldl_addReq_spec batch Grouped.empty
  have l1 : (groupBatch batch).gets.length =
      (batch.filterMap getKeyOf).dedup.length := by
    rw [← foldl_insKey_length]
    have := congrArg List.length e1
    simpa [Grouped.empty, groupBatch] using this
  have l2 : (groupBatch batch).sets.length =
      (batch.filterMap setKeyOf).dedup.length := by
    rw [← foldl_insKey_length]
    have := congrArg List.length e2
    simpa [Grouped.empty, groupBatch] using this
  have l3 : (groupBatch batch).dels.length =
      (batch.filterMap delKeyOf).dedup.length := by
    rw [← foldl_insKey_length]
    have := congrArg List.length e3
    simpa [Grouped.empty, groupBatch] using this
  have l4 : (groupBatch batch).existsGroups.length =
      (batch.filterMap existsKeyOf).dedup.length := by
    rw [← foldl_insKey_length]
    have := congrArg List.length e4
    simpa [Grouped.empty, groupBatch] using this
  rw [pipelineCmdsOf]
  simp only [List.length_append, List.length_map, sets_filterMap_length]
  omega

/-- Requests of unrecognized type receive the unsupported-operation error in
every branch of processBatch. -/
theorem unsupported_delivered (store : Store) (tdown : Option String)
    (batch : List (Nat × BatchRequest)) (p : Nat × BatchRequest)
    (hp : p ∈ batch) (hun : specGroupingKey p.2 = none) :
    (p.1, Delivery.error (RErr.unsupported p.2.type)) ∈
      processBatchDeliveries store tdown batch := by
  have h1 : p.2.type ≠ TypeGet := by
    intro h; rw [specGroupingKey, if_pos h] at hun; exact Option.noConfusion hun
  have h2 : p.2.type ≠ TypeSet := by
    intro h
    rw [specGroupingKey, if_neg h1, if_pos h] at hun
    exact Option.noConfusion hun
  have h3 : p.2.type ≠ TypeDel := by
    intro h
    rw [specGroupingKey, if_neg h1, if_neg h2, if_pos h] at hun
    exact Option.noConfusion hun
  have h4 : p.2.type ≠ TypeExists := by
    intro h
    rw [specGroupingKey, if_neg h1, if_neg h2, if_neg h3, if_pos h] at hun
    exact Option.noConfusion hun
  have hmem : (p.1, Delivery.error (RErr.unsupported p.2.type)) ∈
      (groupBatch batch).unsupported := by
    have := (foldl_addReq_spec batch Grouped.empty).2.2.2.2
    rw [groupBatch, this]
    simp only [Grouped.empty, List.nil_append]
    refine List.mem_filterMap.mpr ⟨p, hp, ?_⟩
    rw [unsupDeliveryOf, if_neg h1, if_neg h2, if_neg h3, if_neg h4]
  have hne : batch.isEmpty = false := by
    cases batch with
    | nil => cases hp
    | cons a l => rfl
  rw [show processBatchDeliveries store tdown batch
      = (let g := groupBatch batch
         let cmds := pipelineCmdsOf g
         let groups := pipelineGroupsOf g
         match tdown with
         | some msg =>
           g.unsupported
             ++ (groups.flatten.map fun q =>
                  (q.1, Delivery.error (.transport msg)))
         | none =>
           let results := (execCmds store cmds).1
           match firstErr results with
           | some e =>
             g.unsupported
               ++ (groups.flatten.map fun q => (q.1, Delivery.error e))
           | none => g.unsupported ++ deliverGroups groups results)
    from by rw [processBatchDeliveries, if_neg (by simp [hne])]]
  cases tdown with
  | some msg => exact List.mem_append_left _ hmem
  | none =>
    cases hres : firstErr (execCmds store
        (pipelineCmdsOf (groupBatch batch))).1 with
    | some e =>
      simp only [hres]
      exact List.mem_append_left _ hmem
    | none =>
      simp only [hres]
      exact List.mem_append_left _ hmem

end Redis

/-- C1: the claim states every admitted request gets exactly one delivery on
exactly one channel, but in the earlier object-store batcher revision
(unnamed/part_010, processBatch lines 161-207) the worker reads the FIRST
group member's channel to forward to the others: in a coalesced group of two,
member 0's only delivery is consumed and re-sent to member 1, leaving member
0 with zero deliveries; in a group of three the worker blocks forever on the
emptied channels. -/
theorem claim1_part10_first_member_starved :
    S3.part10DistributeGroup (Except.ok "objectOutput") 2 =
      some [{ res := none, err := none }, { res := some "objectOutput", err := none }]
    ∧ S3.part10DistributeGroup (Except.ok "objectOutput") 3 = none := by
  exact ⟨rfl, rfl⟩

/-- C2: the claim states Submit during shutdown delivers a shutting-down
error and returns normally, but RedisBatcher.Submit (Dockerfile lines
228-237) has no shutdown guard: after Shutdown closes pendingRequests, an
enabled batcher's Submit sends on a closed Go channel, which panics the
runtime instead of delivering any error. -/
theorem claim2_submit_after_shutdown_panics :
    Redis.Submit (Redis.Shutdown ⟨true, false⟩) []
      ⟨Redis.TypeGet, "k", ""⟩ = Redis.SubmitOutcome.panicked := by
  rfl

/-- C3: the claim states a Get on an absent key delivers the empty string as
a result, but RedisBatcher never treats redis.Nil specially: the direct path
(executeRequest, lines 251-284) delivers the redis.Nil error on the error
channel, and in the pipelined path (processBatch, lines 434-479) the
redis.Nil surfaces from pipe.Exec and even fails every other request of the
same batch. -/
theorem claim3_missing_key_get_delivers_error :
    Redis.executeRequest [("other", "v")] ⟨Redis.TypeGet, "missing", ""⟩ =
      (Redis.Delivery.error Redis.RErr.nilErr,
        [Redis.RedisCmd.get "missing"], [("other", "v")])
    ∧ Redis.processBatchDeliveries [("other", "v")] none
        [(0, ⟨Redis.TypeGet, "missing", ""⟩)] =
      [(0, Redis.Delivery.error Redis.RErr.nilErr)]
    ∧ Redis.processBatchDeliveries [] none
        [(0, ⟨Redis.TypeGet, "missing", ""⟩), (1, ⟨Redis.TypeSet, "a", "b"⟩)] =
      [(0, Redis.Delivery.error Redis.RErr.nilErr),
       (1, Redis.Delivery.error Redis.RErr.nilErr)] := by
  exact ⟨rfl, rfl, rfl⟩

/-- C4: the claim states every member of a coalesced GetObject group can
independently drain identical body bytes, but executeGroupedRequests
(unnamed/part_011 lines 187-205) sends the SAME GetObjectOutput — one shared
body stream — to every member: after the first member's handler drains and
closes it (unnamed/part_009 lines 277-284), the second member drains zero
bytes. -/
theorem claim4_coalesced_getobject_shares_one_body :
    (S3.executeGroupedRequests ⟨["b"], [(("b", "k"), ⟨"text/plain", [1, 2, 3]⟩)]⟩
        ⟨[]⟩ [(0, ⟨S3.TypeGetObject, "b", "k", "", 0⟩),
              (1, ⟨S3.TypeGetObject, "b", "k", "", 0⟩)]).1 =
      [(0, S3.Delivery.result (S3.S3Out.getObjectOut ⟨"text/plain", 3, 0⟩)),
       (1, S3.Delivery.result (S3.S3Out.getObjectOut ⟨"text/plain", 3, 0⟩))]
    ∧ (S3.drainAndClose
        (S3.executeGroupedRequests ⟨["b"], [(("b", "k"), ⟨"text/plain", [1, 2, 3]⟩)]⟩
          ⟨[]⟩ [(0, ⟨S3.TypeGetObject, "b", "k", "", 0⟩),
                (1, ⟨S3.TypeGetObject, "b", "k", "", 0⟩)]).2 0).1 = [1, 2, 3]
    ∧ (S3.drainAndClose
        (S3.drainAndClose
          (S3.executeGroupedRequests ⟨["b"], [(("b", "k"), ⟨"text/plain", [1, 2, 3]⟩)]⟩
            ⟨[]⟩ [(0, ⟨S3.TypeGetObject, "b", "k", "", 0⟩),
                  (1, ⟨S3.TypeGetObject, "b", "k", "", 0⟩)]).2 0).2 0).1 = []
    ∧ decide (([] : List Nat) = [1, 2, 3]) = false := by
  exact ⟨rfl, rfl, rfl, rfl⟩

/-- C5 counterexample: the Set requests (key "a:b", value "c") and (key "a",
value "b:c") have different (key, value) tuples but identical grouping
strings "a:b:c", so processBatch puts them in one group; and the backend Set
issued for a group whose representative is (key "a:b", value "c") is
SET "a" "b:c" — not that group's key and value. -/
theorem claim5_counterexample_colon_collision :
    (Redis.groupBatch [(0, ⟨Redis.TypeSet, "a:b", "c"⟩),
        (1, ⟨Redis.TypeSet, "a", "b:c"⟩)]).sets.length = 1
    ∧ decide ((("a:b" : String), ("c" : String)) = ("a", "b:c")) = false
    ∧ Redis.pipelineCmdsOf
        (Redis.groupBatch [(0, ⟨Redis.TypeSet, "a:b", "c"⟩)]) =
      [Redis.RedisCmd.set "a" "b:c"] := by
  exact ⟨rfl, rfl, rfl⟩

/-- C5 (amended): two Set requests of a batch land in the same group iff
their colon-joined grouping strings key + ":" + value coincide — equality of
the (key, value) tuples is sufficient but not necessary — and the backend
Set command recovers exactly the group's key and value whenever the key
contains no colon. -/
theorem claim5_set_grouping (r1 r2 : Redis.BatchRequest)
    (h1 : r1.type = Redis.TypeSet) (h2 : r2.type = Redis.TypeSet) :
    ((Redis.groupBatch [(0, r1), (1, r2)]).sets.length = 1 ↔
      r1.key ++ ":" ++ r1.value = r2.key ++ ":" ++ r2.value)
    ∧ ((':' ∈ r1.key.data → False) →
        Redis.splitKeyValue (r1.key ++ ":" ++ r1.value) = [r1.key, r1.value]) := by
  constructor
  · have hne1 : r1.type ≠ Redis.TypeGet := by rw [h1]; decide
    have hne2 : r2.type ≠ Redis.TypeGet := by rw [h2]; decide
    have e1 := Redis.addReq_set Redis.Grouped.empty (0, r1) hne1 h1
    rw [Redis.groupBatch, List.foldl_cons, List.foldl_cons, List.foldl_nil,
      e1]
    rw [Redis.addReq_set _ (1, r2) hne2 h2]
    simp only [Redis.Grouped.empty, Redis.addToGroup]
    by_cases hs : r1.key ++ ":" ++ r1.value = r2.key ++ ":" ++ r2.value
    · rw [if_pos hs]
      simp [hs]
    · rw [if_neg hs]
      simp [hs]
  · intro h
    exact Redis.splitKeyValue_of_no_colon r1.key r1.value h

/-- C5 witness: the amended statement at two concrete equal Set requests. -/
theorem claim5_set_grouping_witness :
    Redis.splitKeyValue ("a" ++ ":" ++ "x") = ["a", "x"]
    ∧ (Redis.groupBatch [(0, ⟨Redis.TypeSet, "a", "x"⟩),
        (1, ⟨Redis.TypeSet, "a", "x"⟩)]).sets.length = 1 :=
  ⟨(claim5_set_grouping ⟨Redis.TypeSet, "a", "x"⟩ ⟨Redis.TypeSet, "a", "x"⟩
      rfl rfl).2 (by decide),
   ((claim5_set_grouping ⟨Redis.TypeSet, "a", "x"⟩ ⟨Redis.TypeSet, "a", "x"⟩
      rfl rfl).1).mpr rfl⟩

/-- C6 counterexample: a batch of the two Set requests (key "a:b", value "c")
and (key "a", value "b:c") has two distinct spec grouping keys but
processBatch issues a single backend command for it. -/
theorem claim6_counterexample_command_count :
    (Redis.pipelineCmdsOf
      (Redis.groupBatch [(0, ⟨Redis.TypeSet, "a:b", "c"⟩),
        (1, ⟨Redis.TypeSet, "a", "b:c"⟩)])).length = 1
    ∧ ([Redis.BatchRequest.mk Redis.TypeSet "a:b" "c",
        Redis.BatchRequest.mk Redis.TypeSet "a" "b:c"].filterMap
          Redis.specGroupingKey).dedup.length = 2 := by
  exact ⟨rfl, by decide⟩

/-- C6 (amended): for every batch, the number of pipelined backend commands
equals the number of distinct grouping STRINGS per operation type (the Set
string being key + ":" + value, under which distinct (key, value) tuples can
collide), and every request of unrecognized type receives the
unsupported-operation error — it contributes no grouping string, hence no
backend command. -/
theorem claim6_commands_per_group (store : Redis.Store)
    (tdown : Option String) (batch : List (Nat × Redis.BatchRequest)) :
    (Redis.pipelineCmdsOf (Redis.groupBatch batch)).length =
      (batch.filterMap Redis.getKeyOf).dedup.length
      + (batch.filterMap Redis.setKeyOf).dedup.length
      + (batch.filterMap Redis.delKeyOf).dedup.length
      + (batch.filterMap Redis.existsKeyOf).dedup.length
    ∧ ∀ p ∈ batch, Redis.specGroupingKey p.2 = none →
        (p.1, Redis.Delivery.error (Redis.RErr.unsupported p.2.type)) ∈
          Redis.processBatchDeliveries store tdown batch :=
  ⟨Redis.pipelineCmds_count batch,
   fun p hp hun => Redis.unsupported_delivered store tdown batch p hp hun⟩

/-- C6 witness: the amended statement at a concrete two-request batch with
one supported and one unsupported request. -/
theorem claim6_commands_per_group_witness :
    (Redis.pipelineCmdsOf (Redis.groupBatch
        [(0, ⟨Redis.TypeGet, "k", ""⟩), (1, ⟨"Frob", "x", ""⟩)])).length =
      ([(0, Redis.BatchRequest.mk Redis.TypeGet "k" ""),
        (1, ⟨"Frob", "x", ""⟩)].filterMap Redis.getKeyOf).dedup.length
      + ([(0, Redis.BatchRequest.mk Redis.TypeGet "k" ""),
        (1, ⟨"Frob", "x", ""⟩)].filterMap Redis.setKeyOf).dedup.length
      + ([(0, Redis.BatchRequest.mk Redis.TypeGet "k" ""),
        (1, ⟨"Frob", "x", ""⟩)].filterMap Redis.delKeyOf).dedup.length
      + ([(0, Redis.BatchRequest.mk Redis.TypeGet "k" ""),
        (1, ⟨"Frob", "x", ""⟩)].filterMap Redis.existsKeyOf).dedup.length
    ∧ ((1 : Nat), Redis.Delivery.error (Redis.RErr.unsupported "Frob")) ∈
        Redis.processBatchDeliveries [] none
          [(0, ⟨Redis.TypeGet, "k", ""⟩), (1, ⟨"Frob", "x", ""⟩)] :=
  ⟨(claim6_commands_per_group [] none _).1,
   (claim6_commands_per_group [] none _).2 (1, ⟨"Frob", "x", ""⟩)
     (by decide) rfl⟩

/-- C7 counterexample: the claim's order — HTTP server first, then batcher
Shutdown, then executor release — does not hold of BatchingAgent.Shutdown,
which calls the batcher's Shutdown (including the Redis client close) before
shutting the HTTP server down. -/
theorem claim7_counterexample_shutdown_order :
    decide (Lifecycle.specShutdownOrder Lifecycle.agentShutdownEvents) =
      false := by
  rfl

/-- C7 (amended): on a termination signal the agent first runs the batcher's
Shutdown — closing the submission channel, draining the worker, and then
releasing the Redis client — and only afterwards shuts down the HTTP server
under the 10-second context. -/
theorem claim7_batcher_shutdown_first :
    Lifecycle.agentShutdownEvents.indexOf Lifecycle.Ev.batcherShutdown <
      Lifecycle.agentShutdownEvents.indexOf Lifecycle.Ev.executorRelease
    ∧ Lifecycle.agentShutdownEvents.indexOf Lifecycle.Ev.executorRelease <
      Lifecycle.agentShutdownEvents.indexOf Lifecycle.Ev.serverShutdown := by
  exact ⟨by decide, by decide⟩

/-- C8: in one worker iteration the batch never exceeds maxBatchSize;
collection stops at once when the batch is full, when the window timer
fires, or when the channel closes; and whatever ended collection, every
admitted request of the batch receives exactly one delivery from
processBatch (the delivered ids are a permutation of the admitted ids). -/
theorem claim8_worker_collection (maxB : Nat) (hmax : 1 ≤ maxB)
    (i0 : Nat) (r0 : Redis.BatchRequest)
    (batch : List (Nat × Redis.BatchRequest)) (evs : List Redis.WorkerEv) :
    (Redis.collectLoop maxB [(i0, r0)] evs).length ≤ maxB
    ∧ (maxB ≤ batch.length → Redis.collectLoop maxB batch evs = batch)
    ∧ Redis.collectLoop maxB batch (Redis.WorkerEv.timerFires :: evs) = batch
    ∧ Redis.collectLoop maxB batch (Redis.WorkerEv.closed :: evs) = batch
    ∧ ∀ (store : Redis.Store) (tdown : Option String),
        ((Redis.workerIter maxB store tdown i0 r0 evs).map Prod.fst).Perm
          ((Redis.collectLoop maxB [(i0, r0)] evs).map Prod.fst) :=
  ⟨Redis.collectLoop_length_le maxB evs [(i0, r0)] (by simpa using hmax),
   fun h => Redis.collectLoop_full maxB evs batch h,
   Redis.collectLoop_timer maxB evs batch,
   Redis.collectLoop_closed maxB evs batch,
   fun store tdown => Redis.processBatch_ids_perm store tdown _⟩

/-- C8 witness: a window of size 2 filled by a first request and one arrival
before the channel closes; both admitted requests are delivered to. -/
theorem claim8_worker_collection_witness :
    (Redis.collectLoop 2 [(5, ⟨Redis.TypeGet, "a", ""⟩)]
      [Redis.WorkerEv.arrive 7 ⟨Redis.TypeDel, "a", ""⟩,
       Redis.WorkerEv.closed]).length ≤ 2
    ∧ ((Redis.workerIter 2 [("a", "1")] none 5 ⟨Redis.TypeGet, "a", ""⟩
        [Redis.WorkerEv.arrive 7 ⟨Redis.TypeDel, "a", ""⟩,
         Redis.WorkerEv.closed]).map Prod.fst).Perm
        ((Redis.collectLoop 2 [(5, ⟨Redis.TypeGet, "a", ""⟩)]
          [Redis.WorkerEv.arrive 7 ⟨Redis.TypeDel, "a", ""⟩,
           Redis.WorkerEv.closed]).map Prod.fst) :=
  ⟨(claim8_worker_collection 2 (by decide) 5 ⟨Redis.TypeGet, "a", ""⟩ []
      [Redis.WorkerEv.arrive 7 ⟨Redis.TypeDel, "a", ""⟩,
       Redis.WorkerEv.closed]).1,
   (claim8_worker_collection 2 (by decide) 5 ⟨Redis.TypeGet, "a", ""⟩ []
      [Redis.WorkerEv.arrive 7 ⟨Redis.TypeDel, "a", ""⟩,
       Redis.WorkerEv.closed]).2.2.2.2 [("a", "1")] none⟩

/-- C9: with batching disabled, every Submit of a supported request executes
it synchronously on the caller with exactly one backend command, whatever
the channel's state — the queue, window and worker are never involved. -/
theorem claim9_disabled_submit_executes_directly (closed : Bool)
    (store : Redis.Store) (r : Redis.BatchRequest)
    (hsupp : r.type = Redis.TypeGet ∨ r.type = Redis.TypeSet
      ∨ r.type = Redis.TypeDel ∨ r.type = Redis.TypeExists) :
    Redis.Submit ⟨false, closed⟩ store r =
      Redis.SubmitOutcome.executed (Redis.executeRequest store r).1
        (Redis.executeRequest store r).2.1 (Redis.executeRequest store r).2.2
    ∧ (Redis.executeRequest store r).2.1.length = 1 := by
  constructor
  · rfl
  · rcases hsupp with h | h | h | h
    · rw [Redis.executeRequest, if_pos h]
      cases hv : Redis.storeGet store r.key <;> simp
    · have h1 : r.type ≠ Redis.TypeGet := by rw [h]; decide
      rw [Redis.executeRequest, if_neg h1, if_pos h]
      rfl
    · have h1 : r.type ≠ Redis.TypeGet := by rw [h]; decide
      have h2 : r.type ≠ Redis.TypeSet := by rw [h]; decide
      rw [Redis.executeRequest, if_neg h1, if_neg h2, if_pos h]
      rfl
    · have h1 : r.type ≠ Redis.TypeGet := by rw [h]; decide
      have h2 : r.type ≠ Redis.TypeSet := by rw [h]; decide
      have h3 : r.type ≠ Redis.TypeDel := by rw [h]; decide
      rw [Redis.executeRequest, if_neg h1, if_neg h2, if_neg h3, if_pos h]
      rfl

/-- C9 witness: a disabled batcher executing a Get directly. -/
theorem claim9_disabled_submit_witness :
    Redis.Submit ⟨false, true⟩ [("k", "v")] ⟨Redis.TypeGet, "k", ""⟩ =
      Redis.SubmitOutcome.executed
        (Redis.executeRequest [("k", "v")] ⟨Redis.TypeGet, "k", ""⟩).1
        (Redis.executeRequest [("k", "v")] ⟨Redis.TypeGet, "k", ""⟩).2.1
        (Redis.executeRequest [("k", "v")] ⟨Redis.TypeGet, "k", ""⟩).2.2
    ∧ (Redis.executeRequest [("k", "v")] ⟨Redis.TypeGet, "k", ""⟩).2.1.length
        = 1 :=
  claim9_disabled_submit_executes_directly true [("k", "v")]
    ⟨Redis.TypeGet, "k", ""⟩ (Or.inl rfl)

/-- C10 counterexample: a /redis/set request missing BOTH parameters is
rejected with the key message, not "Missing required parameter: value", so
the claim's response message does not hold of every request with an absent
or empty value. -/
theorem claim10_counterexample_missing_both :
    Front.handleSet [] =
      Front.SetAction.reject 400 "Missing required parameter: key"
    ∧ decide (("Missing required parameter: key" : String) =
        "Missing required parameter: value") = false := by
  exact ⟨rfl, rfl⟩

/-- C10 (amended): a /redis/set request whose value parameter is absent or
empty is rejected 400 with "Missing required parameter: value" whenever its
key parameter is present and nonempty (with the key message otherwise), and
is never submitted to the batcher; consequently every submitted Set carries
a nonempty value, so no empty-string value can be stored through the
agent. -/
theorem claim10_empty_value_rejected (params : List (String × String)) :
    (Front.queryGet params "value" = "" →
      ((Front.queryGet params "key" = "" → False) →
        Front.handleSet params =
          Front.SetAction.reject 400 "Missing required parameter: value")
      ∧ ∀ k v, Front.handleSet params = Front.SetAction.submit k v → False)
    ∧ (∀ k v, Front.handleSet params = Front.SetAction.submit k v →
        v = "" → False) := by
  constructor
  · intro hv
    constructor
    · intro hk
      rw [Front.handleSet, if_neg hk, hv, if_pos rfl]
    · intro k v hsub
      rw [Front.handleSet] at hsub
      by_cases hk : Front.queryGet params "key" = ""
      · rw [if_pos hk] at hsub
        exact Front.SetAction.noConfusion hsub
      · rw [if_neg hk, hv, if_pos rfl] at hsub
        exact Front.SetAction.noConfusion hsub
  · intro k v hsub hve
    rw [Front.handleSet] at hsub
    by_cases hk : Front.queryGet params "key" = ""
    · rw [if_pos hk] at hsub
      exact Front.SetAction.noConfusion hsub
    · rw [if_neg hk] at hsub
      by_cases hval : Front.queryGet params "value" = ""
      · rw [if_pos hval] at hsub
        exact Front.SetAction.noConfusion hsub
      · rw [if_neg hval] at hsub
        apply hval
        rw [(Front.SetAction.submit.inj hsub).2]
        exact hve

/-- C10 witness: the amended statement at a request with a key but an empty
value. -/
theorem claim10_empty_value_rejected_witness :
    Front.handleSet [("key", "k"), ("value", "")] =
      Front.SetAction.reject 400 "Missing required parameter: value" :=
  ((claim10_empty_value_rejected [("key", "k"), ("value", "")]).1 rfl).1
    (by decide)
